import Mathlib

/-!
# gokrazy/internal: `updater` and `httpclient`

A shallow embedding of the two Go packages `updater` (streaming upload with
inline SHA-256 verification, partition switch, reboot, feature query) and
`httpclient` (TLS trust bootstrapping), followed by theorems about them.

Conventions of the embedding:

* a Go `[]byte` and a Go `string` are both a `List Byte`; a byte is a natural
  number (a well-formed byte is below 256);
* a Go `error` is an `Option GoError`, `none` being `nil`;
* everything outside the program (the network, the file system, the system
  certificate pool, PEM parsing, the per-host configuration directory) is an
  explicit environment argument (`Net`, `System`) whose fields are arbitrary
  functions, so every theorem holds for every behaviour of the outside world;
* the Go standard-library functions the program calls and whose result decides
  its behaviour (`encoding/hex`, `crypto/sha256`, `bytes.HasPrefix`,
  `strings.TrimSpace`, `strings.Split`, `unicode/utf8`) are embedded from their
  Go definitions;
* logging (`log.Printf`) and timing (`time.Now`, `time.Since`) have no effect
  on any returned value and are left out.
-/

namespace Gokrazy

/-- A byte of a Go `[]byte` or `string`. -/
abbrev Byte := Nat

/-- A Go `string`: its sequence of bytes. -/
abbrev GoString := List Byte

/-- The Go `error` values the two packages create or pass on.  The errors built
with `fmt.Errorf` are kept as the arguments of their format string. -/
inductive GoError where
  /-- An error produced by the outside world (transport failure, body read
  failure, URL parse failure, file read failure other than non-existence). -/
  | external (msg : String)
  /-- The error of `os.Stat` for which `os.IsNotExist` is true. -/
  | ErrNotExist
  /-- The value `hex.InvalidByteError(b)`. -/
  | InvalidByteError (b : Byte)
  /-- The value `hex.ErrLength`. -/
  | ErrLength
  /-- The package variable `ErrUpdateHandlerNotImplemented`. -/
  | ErrUpdateHandlerNotImplemented
  /-- `fmt.Errorf("unexpected HTTP status code: got %d, want %d (body %q)", got, want, string(body))`. -/
  | unexpectedStatus (got want : Int) (body : List Byte)
  /-- `fmt.Errorf("unexpected SHA256 hash: got %x, want %x", got, want)`. -/
  | unexpectedHash (got want : List Byte)
  /-- `fmt.Errorf("reading user specified certificate %s: %v", usrCert, err)`. -/
  | readingUserCertificate (usrCert : GoString) (err : GoError)
  /-- `fmt.Errorf("reading certificate %s: %v", certPath, err)`. -/
  | readingCertificate (certPath : GoString) (err : GoError)
deriving DecidableEq

/-! ## `unicode/utf8` and `unicode` -/

namespace utf8

def RuneError : Nat := 0xFFFD

def RuneSelf : Nat := 0x80

def UTFMax : Nat := 4

/-- The table `first`: information about the first byte of a UTF-8 sequence
(`as` = 0xF0, `xx` = 0xF1, `s1` = 0x02, `s2` = 0x13, `s3` = 0x03, `s4` = 0x23,
`s5` = 0x34, `s6` = 0x04, `s7` = 0x44). -/
def first (b : Byte) : Nat :=
  if b < 0x80 then 0xF0
  else if b < 0xC2 then 0xF1
  else if b < 0xE0 then 0x02
  else if b = 0xE0 then 0x13
  else if b < 0xED then 0x03
  else if b = 0xED then 0x23
  else if b < 0xF0 then 0x03
  else if b = 0xF0 then 0x34
  else if b < 0xF4 then 0x04
  else if b = 0xF4 then 0x44
  else 0xF1

/-- The table `acceptRanges`: the interval allowed for the second byte. -/
def acceptRanges (i : Nat) : Nat × Nat :=
  match i with
  | 0 => (0x80, 0xBF)
  | 1 => (0xA0, 0xBF)
  | 2 => (0x80, 0x9F)
  | 3 => (0x90, 0xBF)
  | 4 => (0x80, 0x8F)
  | _ => (0, 0)

/-- Go `utf8.DecodeRuneInString`: the first rune of `s` and its width in
bytes; `(RuneError, 0)` for the empty string, `(RuneError, 1)` for an invalid
encoding. -/
def DecodeRuneInString (s : GoString) : Nat × Nat :=
  match s with
  | [] => (RuneError, 0)
  | s0 :: _ =>
    let x := first s0
    if x ≥ 0xF0 then
      (if x = 0xF1 then RuneError else s0, 1)
    else
      let sz := x &&& 7
      let accept := acceptRanges (x >>> 4)
      if s.length < sz then (RuneError, 1)
      else
        let s1 := s.getD 1 0
        if s1 < accept.1 ∨ accept.2 < s1 then (RuneError, 1)
        else if sz ≤ 2 then (((s0 &&& 0x1F) <<< 6) ||| (s1 &&& 0x3F), 2)
        else
          let s2 := s.getD 2 0
          if s2 < 0x80 ∨ 0xBF < s2 then (RuneError, 1)
          else if sz ≤ 3 then
            (((s0 &&& 0x0F) <<< 12) ||| ((s1 &&& 0x3F) <<< 6) ||| (s2 &&& 0x3F), 3)
          else
            let s3 := s.getD 3 0
            if s3 < 0x80 ∨ 0xBF < s3 then (RuneError, 1)
            else
              (((s0 &&& 0x07) <<< 18) ||| ((s1 &&& 0x3F) <<< 12) ||| ((s2 &&& 0x3F) <<< 6)
                ||| (s3 &&& 0x3F), 4)

/-- Go `utf8.RuneStart`: the byte is not a continuation byte. -/
def RuneStart (b : Byte) : Bool := (b &&& 0xC0) != 0x80

/-- The backward scan of `DecodeLastRuneInString`:
`for start--; start >= lim; start-- { if RuneStart(s[start]) { break } }`,
entered with `start` already decremented.  It runs at most three times, since
`lim` is at least `len(s) - UTFMax`. -/
def lastRuneStart (s : GoString) (lim : Int) : Nat → Int → Int
  | 0, start => start
  | fuel + 1, start =>
    if start ≥ lim then
      if RuneStart (s.getD start.toNat 0) then start
      else lastRuneStart s lim fuel (start - 1)
    else start

/-- Go `utf8.DecodeLastRuneInString`: the last rune of `s` and its width. -/
def DecodeLastRuneInString (s : GoString) : Nat × Nat :=
  let stop : Int := s.length
  if stop = 0 then (RuneError, 0)
  else
    let start : Int := stop - 1
    let r := s.getD start.toNat 0
    if r < RuneSelf then (r, 1)
    else
      let lim : Int := if stop - UTFMax < 0 then 0 else stop - UTFMax
      let start := lastRuneStart s lim 4 (start - 1)
      let start := if start < 0 then 0 else start
      let (r, size) := DecodeRuneInString (s.drop start.toNat)
      if start + size ≠ stop then (RuneError, 1) else (r, size)

end utf8

namespace unicode

/-- Go `unicode.IsSpace`: the Latin-1 spaces, and beyond Latin-1 the code
points of the `White_Space` range table. -/
def IsSpace (r : Nat) : Bool :=
  if r ≤ 0xFF then
    r = 0x09 ∨ r = 0x0A ∨ r = 0x0B ∨ r = 0x0C ∨ r = 0x0D ∨ r = 0x20 ∨ r = 0x85 ∨ r = 0xA0
  else
    r = 0x1680 ∨ (0x2000 ≤ r ∧ r ≤ 0x200A) ∨ r = 0x2028 ∨ r = 0x2029 ∨ r = 0x202F
      ∨ r = 0x205F ∨ r = 0x3000

end unicode

/-! ## `strings` and `bytes` -/

namespace strings

/-- Go `strings.indexFunc`: the byte index of the first rune `r` of `s` with
`f r = truth`, or `-1`.  `s` is what is left of the string at byte offset `i`;
the fuel is the number of bytes left (every rune is at least one byte wide). -/
def indexFunc (f : Nat → Bool) (truth : Bool) : Nat → GoString → Nat → Int
  | 0, _, _ => -1
  | fuel + 1, s, i =>
    match s with
    | [] => -1
    | _ :: _ =>
      let (r, w) := utf8.DecodeRuneInString s
      if f r = truth then i else indexFunc f truth fuel (s.drop w) (i + w)

/-- Go `strings.lastIndexFunc`: the byte index of the last rune `r` of `s` with
`f r = truth`, or `-1`; `i` is the loop variable, starting at `len(s)`. -/
def lastIndexFunc (f : Nat → Bool) (truth : Bool) (s : GoString) : Nat → Nat → Int
  | 0, _ => -1
  | fuel + 1, i =>
    if i > 0 then
      let (r, size) := utf8.DecodeLastRuneInString (s.take i)
      let i := i - size
      if f r = truth then i else lastIndexFunc f truth s fuel i
    else -1

/-- Go `strings.TrimLeftFunc`. -/
def TrimLeftFunc (s : GoString) (f : Nat → Bool) : GoString :=
  let i := indexFunc f false s.length s 0
  if i = -1 then [] else s.drop i.toNat

/-- Go `strings.TrimRightFunc`. -/
def TrimRightFunc (s : GoString) (f : Nat → Bool) : GoString :=
  let i := lastIndexFunc f false s s.length s.length
  let i :=
    if i ≥ 0 ∧ s.getD i.toNat 0 ≥ utf8.RuneSelf then
      i + (utf8.DecodeRuneInString (s.drop i.toNat)).2
    else i + 1
  s.take i.toNat

/-- Go `strings.TrimFunc`. -/
def TrimFunc (s : GoString) (f : Nat → Bool) : GoString :=
  TrimRightFunc (TrimLeftFunc s f) f

/-- Go `strings.TrimSpace`: `s` without its leading and trailing white space
as defined by Unicode, that is `TrimFunc(s, unicode.IsSpace)` (the ASCII fast
path of recent Go versions computes the same string). -/
def TrimSpace (s : GoString) : GoString := TrimFunc s unicode.IsSpace

/-- Go `strings.Split(s, sep)` for a separator of one byte, which is how both
packages call it (with `","`): the substrings between the separators; the
result is never empty. -/
def Split (s : GoString) (sep : Byte) : List GoString :=
  match s with
  | [] => [[]]
  | c :: rest =>
    if c = sep then [] :: Split rest sep
    else
      match Split rest sep with
      | [] => [[c]]
      | f :: fs => (c :: f) :: fs

end strings

namespace bytes

/-- Go `bytes.HasPrefix`: `len(s) >= len(p) && Equal(s[0:len(p)], p)`. -/
def HasPrefix (s p : List Byte) : Bool :=
  decide (s.length ≥ p.length) && decide (s.take p.length = p)

end bytes

/-! ## `encoding/hex` -/

namespace hex

/-- Go `hex.fromHexChar`: the value of a hexadecimal digit. -/
def fromHexChar (c : Byte) : Option Byte :=
  if 48 ≤ c ∧ c ≤ 57 then some (c - 48)
  else if 97 ≤ c ∧ c ≤ 102 then some (c - 97 + 10)
  else if 65 ≤ c ∧ c ≤ 70 then some (c - 65 + 10)
  else none

/-- Go `hex.DecodedLen`. -/
def DecodedLen (x : Nat) : Nat := x / 2

/-- Go `hex.Decode(dst, src)` with `len(dst) = DecodedLen(len(src))`: the bytes
`dst[:n]` written and the error.  Two digits make one byte; the first invalid
byte is reported, before a bad (odd) length. -/
def Decode : List Byte → List Byte × Option GoError
  | [] => ([], none)
  | [p] =>
    match fromHexChar p with
    | none => ([], some (.InvalidByteError p))
    | some _ => ([], some .ErrLength)
  | p :: q :: rest =>
    match fromHexChar p with
    | none => ([], some (.InvalidByteError p))
    | some a =>
      match fromHexChar q with
      | none => ([], some (.InvalidByteError q))
      | some b => (((a <<< 4) ||| b) :: (Decode rest).1, (Decode rest).2)

/-- The table `hextable = "0123456789abcdef"`. -/
def hextable (v : Nat) : Byte := if v < 10 then 48 + v else 97 + (v - 10)

/-- Go `hex.Encode` (and `hex.EncodeToString`, `%x`): two lower-case digits
for every byte. -/
def Encode : List Byte → List Byte
  | [] => []
  | v :: rest => hextable (v >>> 4) :: hextable (v &&& 0x0F) :: Encode rest

end hex

/-! ## `crypto/sha256` -/

namespace sha256

/-- The round constants `_K` of SHA-256. -/
def K : List Nat := [
  0x428a2f98, 0x71374491, 0xb5c0fbcf, 0xe9b5dba5, 0x3956c25b, 0x59f111f1, 0x923f82a4, 0xab1c5ed5,
  0xd807aa98, 0x12835b01, 0x243185be, 0x550c7dc3, 0x72be5d74, 0x80deb1fe, 0x9bdc06a7, 0xc19bf174,
  0xe49b69c1, 0xefbe4786, 0x0fc19dc6, 0x240ca1cc, 0x2de92c6f, 0x4a7484aa, 0x5cb0a9dc, 0x76f988da,
  0x983e5152, 0xa831c66d, 0xb00327c8, 0xbf597fc7, 0xc6e00bf3, 0xd5a79147, 0x06ca6351, 0x14292967,
  0x27b70a85, 0x2e1b2138, 0x4d2c6dfc, 0x53380d13, 0x650a7354, 0x766a0abb, 0x81c2c92e, 0x92722c85,
  0xa2bfe8a1, 0xa81a664b, 0xc24b8b70, 0xc76c51a3, 0xd192e819, 0xd6990624, 0xf40e3585, 0x106aa070,
  0x19a4c116, 0x1e376c08, 0x2748774c, 0x34b0bcb5, 0x391c0cb3, 0x4ed8aa4a, 0x5b9cca4f, 0x682e6ff3,
  0x748f82ee, 0x78a5636f, 0x84c87814, 0x8cc70208, 0x90befffa, 0xa4506ceb, 0xbef9a3f7, 0xc67178f2]

/-- Addition of two `uint32`. -/
def add32 (x y : Nat) : Nat := (x + y) % 2 ^ 32

/-- Go `bits.RotateLeft32(x, -n)`: rotation of a `uint32` to the right. -/
def rotr (x n : Nat) : Nat := ((x >>> n) ||| (x <<< (32 - n))) % 2 ^ 32

/-- Bitwise complement of a `uint32`. -/
def not32 (x : Nat) : Nat := (2 ^ 32 - 1) ^^^ (x % 2 ^ 32)

/-- The eight working words `h[0..7]` of a digest. -/
structure State where
  h0 : Nat
  h1 : Nat
  h2 : Nat
  h3 : Nat
  h4 : Nat
  h5 : Nat
  h6 : Nat
  h7 : Nat
deriving DecidableEq

/-- The initial words `init0 .. init7`. -/
def init : State :=
  ⟨0x6a09e667, 0xbb67ae85, 0x3c6ef372, 0xa54ff53a, 0x510e527f, 0x9b05688c, 0x1f83d9ab, 0x5be0cd19⟩

/-- A big-endian `uint32` from four bytes. -/
def be32 (b0 b1 b2 b3 : Nat) : Nat := ((b0 * 256 + b1) * 256 + b2) * 256 + b3

/-- The first `n` big-endian words of a chunk. -/
def loadWords : Nat → List Byte → List Nat
  | 0, _ => []
  | n + 1, p => be32 (p.getD 0 0) (p.getD 1 0) (p.getD 2 0) (p.getD 3 0) :: loadWords n (p.drop 4)

/-- The message schedule: `n` more words `w[i]` appended to `w`. -/
def extend : Nat → List Nat → List Nat
  | 0, w => w
  | n + 1, w =>
    let i := w.length
    let v1 := w.getD (i - 2) 0
    let t1 := rotr v1 17 ^^^ rotr v1 19 ^^^ (v1 >>> 10)
    let v2 := w.getD (i - 15) 0
    let t2 := rotr v2 7 ^^^ rotr v2 18 ^^^ (v2 >>> 3)
    extend n (w ++ [add32 (add32 (add32 t1 (w.getD (i - 7) 0)) t2) (w.getD (i - 16) 0)])

/-- One of the 64 rounds, on the round constant and schedule word `kw`. -/
def round (s : State) (kw : Nat × Nat) : State :=
  let t1 := add32 (add32 (add32 (add32 s.h7
    (rotr s.h4 6 ^^^ rotr s.h4 11 ^^^ rotr s.h4 25))
    ((s.h4 &&& s.h5) ^^^ (not32 s.h4 &&& s.h6))) kw.1) kw.2
  let t2 := add32 (rotr s.h0 2 ^^^ rotr s.h0 13 ^^^ rotr s.h0 22)
    ((s.h0 &&& s.h1) ^^^ (s.h0 &&& s.h2) ^^^ (s.h1 &&& s.h2))
  ⟨add32 t1 t2, s.h0, s.h1, s.h2, add32 s.h3 t1, s.h4, s.h5, s.h6⟩

/-- Go `sha256.block` on one chunk of 64 bytes. -/
def block (s : State) (p : List Byte) : State :=
  let w := extend 48 (loadWords 16 p)
  let r := (K.zip w).foldl round s
  ⟨add32 s.h0 r.h0, add32 s.h1 r.h1, add32 s.h2 r.h2, add32 s.h3 r.h3,
   add32 s.h4 r.h4, add32 s.h5 r.h5, add32 s.h6 r.h6, add32 s.h7 r.h7⟩

/-- The block function on `n` successive chunks. -/
def blocks : Nat → State → List Byte → State
  | 0, s, _ => s
  | n + 1, s, p => blocks n (block s (p.take 64)) (p.drop 64)

/-- Go `binary.BigEndian.PutUint64`. -/
def putUint64 (n : Nat) : List Byte :=
  [(n >>> 56) % 256, (n >>> 48) % 256, (n >>> 40) % 256, (n >>> 32) % 256,
   (n >>> 24) % 256, (n >>> 16) % 256, (n >>> 8) % 256, n % 256]

/-- Go `binary.BigEndian.PutUint32`. -/
def putUint32 (n : Nat) : List Byte :=
  [(n >>> 24) % 256, (n >>> 16) % 256, (n >>> 8) % 256, n % 256]

/-- The padding of `checkSum`: a byte 0x80, zeros up to 56 modulo 64, and the
length in bits as a big-endian `uint64`. -/
def pad (msg : List Byte) : List Byte :=
  let len := msg.length
  let zeros := if len % 64 < 56 then 55 - len % 64 else 64 + 55 - len % 64
  msg ++ 0x80 :: List.replicate zeros 0 ++ putUint64 ((len * 8) % 2 ^ 64)

/-- Go `sha256.Sum256`: the SHA-256 checksum (32 bytes) of the data. -/
def Sum256 (msg : List Byte) : List Byte :=
  let padded := pad msg
  let s := blocks (padded.length / 64) init padded
  putUint32 s.h0 ++ putUint32 s.h1 ++ putUint32 s.h2 ++ putUint32 s.h3 ++
  putUint32 s.h4 ++ putUint32 s.h5 ++ putUint32 s.h6 ++ putUint32 s.h7

/-- A running hash (`hash.Hash` from `sha256.New()`), modelled by the bytes
written to it so far. -/
structure digest where
  written : List Byte
deriving DecidableEq

/-- Go `sha256.New`. -/
def New : digest := ⟨[]⟩

/-- Go `(*digest).Write`: never fails. -/
def digest.Write (d : digest) (p : List Byte) : digest := ⟨d.written ++ p⟩

/-- Go `(*digest).Sum(nil)`: the checksum of everything written. -/
def digest.Sum (d : digest) : List Byte := Sum256 d.written

end sha256

/-! ## `net/http`, `net/url`, `crypto/x509` as seen by the program -/

/-- An `x509.CertPool`: the certificates it holds (each as its DER bytes). -/
structure CertPool where
  certs : List (List Byte)
deriving DecidableEq

/-- Go `x509.NewCertPool`: an empty pool. -/
def x509.NewCertPool : CertPool := ⟨[]⟩

/-- A `*url.URL`, by the two observations the program makes of it: the field
`Host` and the result of the method `String()`. -/
structure URL where
  Host : GoString
  String : GoString
deriving DecidableEq

/-- An `*http.Client` as built by `GetTLSHttpClient`: a clone of the default
transport whose only override is `TLSClientConfig.RootCAs`. -/
structure HttpClient where
  RootCAs : CertPool
deriving DecidableEq

/-- The result of reading a response body to its end with `ioutil.ReadAll`:
the bytes read and the read error, if any. -/
structure ResponseBody where
  data : List Byte
  err : Option GoError
deriving DecidableEq

/-- An `*http.Response`. -/
structure Response where
  StatusCode : Int
  Body : ResponseBody
deriving DecidableEq

/-- Go `ioutil.ReadAll`. -/
def ioutil.ReadAll (b : ResponseBody) : List Byte × Option GoError := (b.data, b.err)

/-- An `*http.Request` as `StreamTo` builds it; `Body` is the content of the
reader handed to `http.NewRequest`. -/
structure Request where
  Method : GoString
  Url : GoString
  Body : List Byte
deriving DecidableEq

/-- What `HttpClient.Do` did with a request: how many bytes it read from the
request body before it returned, and what it returned. -/
structure RoundTrip where
  read : Nat
  result : Except GoError Response

/-- The network as the `updater` package meets it.  Every field is an
arbitrary function of its arguments. -/
structure Net where
  /-- The error of `http.NewRequest(method, url, body)` (invalid URL). -/
  NewRequest : GoString → GoString → Option GoError
  /-- The method `(*http.Client).Do`. -/
  Do : HttpClient → Request → RoundTrip
  /-- The method `(*http.Client).Post(url, "", nil)`. -/
  Post : HttpClient → GoString → Except GoError Response
  /-- The method `(*http.Client).Get(url)`. -/
  Get : HttpClient → GoString → Except GoError Response

/-- Go `http.StatusOK`. -/
def http.StatusOK : Int := 200

/-- Go `http.StatusNotFound`. -/
def http.StatusNotFound : Int := 404

/-- Go `http.MethodPut`, the string `"PUT"`. -/
def http.MethodPut : GoString := [80, 85, 84]

/-- Go `utf8.EncodeRune` on a valid code point: its UTF-8 bytes. -/
def utf8.EncodeRune (r : Nat) : List Byte :=
  if r < 0x80 then [r]
  else if r < 0x800 then [0xC0 ||| (r >>> 6), 0x80 ||| (r &&& 0x3F)]
  else if r < 0x10000 then
    [0xE0 ||| (r >>> 12), 0x80 ||| ((r >>> 6) &&& 0x3F), 0x80 ||| (r &&& 0x3F)]
  else
    [0xF0 ||| (r >>> 18), 0x80 ||| ((r >>> 12) &&& 0x3F), 0x80 ||| ((r >>> 6) &&& 0x3F),
     0x80 ||| (r &&& 0x3F)]

/-- The bytes of a Go string literal. -/
def lit (s : String) : GoString := s.toList.flatMap fun c => utf8.EncodeRune c.toNat

/-! ## Package `updater` (src/updater/updater.go) -/

namespace updater

/-- The package variable `ErrUpdateHandlerNotImplemented`. -/
def ErrUpdateHandlerNotImplemented : GoError := .ErrUpdateHandlerNotImplemented

/-- The type `countingWriter`, an `int64`. -/
abbrev countingWriter := Int

/-- The value of an `int64` after an arithmetic operation (two's complement
wrap-around). -/
def int64 (n : Int) : Int := (n + 2 ^ 63) % 2 ^ 64 - 2 ^ 63

/-- The method `(*countingWriter).Write`: adds `len(p)` to the counter and
reports `len(p)` bytes written, without error. -/
def countingWriter.Write (cw : countingWriter) (p : List Byte) :
    countingWriter × Nat × Option GoError :=
  (int64 (cw + p.length), p.length, none)

/-- The type `Updater`. -/
structure Updater where
  BaseUrl : URL
  HttpClient : HttpClient
deriving DecidableEq

/-- The literal `"<!DOCTYPE html>"`. -/
def doctype : List Byte := lit "<!DOCTYPE html>"

/-- The function `StreamTo`.  The request body is
`io.TeeReader(io.TeeReader(r, hash), &cw)`: the bytes the HTTP client reads
from it, `r.take rt.read`, are on their way written to `hash` and counted by
`cw`.  The counter only feeds the log line of the successful case. -/
def StreamTo (net : Net) (updater : Updater) (path : GoString) (r : List Byte) :
    Option GoError :=
  let hash := sha256.New
  let cw : countingWriter := 0
  match net.NewRequest http.MethodPut (updater.BaseUrl.String ++ path) with
  | some err => some err
  | none =>
    let rt := net.Do updater.HttpClient ⟨http.MethodPut, updater.BaseUrl.String ++ path, r⟩
    let hash := hash.Write (r.take rt.read)
    let _cw := (countingWriter.Write cw (r.take rt.read)).1
    match rt.result with
    | .error err => some err
    | .ok resp =>
      if resp.StatusCode ≠ http.StatusOK then
        let body := (ioutil.ReadAll resp.Body).1
        some (.unexpectedStatus resp.StatusCode http.StatusOK body)
      else
        match ioutil.ReadAll resp.Body with
        | (_, some err) => some err
        | (remoteHash, none) =>
          if bytes.HasPrefix remoteHash doctype then some ErrUpdateHandlerNotImplemented
          else
            match hex.Decode remoteHash with
            | (_, some err) => some err
            | (got, none) =>
              let want := hash.Sum
              if got ≠ want then some (.unexpectedHash got want) else none

/-- The function `UpdateRoot`. -/
def UpdateRoot (net : Net) (updater : Updater) (r : List Byte) : Option GoError :=
  StreamTo net updater (lit "update/root") r

/-- The function `UpdateBoot`. -/
def UpdateBoot (net : Net) (updater : Updater) (r : List Byte) : Option GoError :=
  StreamTo net updater (lit "update/boot") r

/-- The function `UpdateMBR`. -/
def UpdateMBR (net : Net) (updater : Updater) (r : List Byte) : Option GoError :=
  StreamTo net updater (lit "update/mbr") r

/-- The function `Switch`. -/
def Switch (net : Net) (updater : Updater) : Option GoError :=
  match net.Post updater.HttpClient (updater.BaseUrl.String ++ lit "update/switch") with
  | .error err => some err
  | .ok resp =>
    if resp.StatusCode ≠ http.StatusOK then
      let body := (ioutil.ReadAll resp.Body).1
      some (.unexpectedStatus resp.StatusCode http.StatusOK body)
    else none

/-- The function `Reboot`. -/
def Reboot (net : Net) (updater : Updater) : Option GoError :=
  match net.Post updater.HttpClient (updater.BaseUrl.String ++ lit "reboot") with
  | .error err => some err
  | .ok resp =>
    if resp.StatusCode ≠ http.StatusOK then
      let body := (ioutil.ReadAll resp.Body).1
      some (.unexpectedStatus resp.StatusCode http.StatusOK body)
    else none

/-- The loop `for _, f := range supported { if f == feature { return true, nil } }`
of `TargetSupports` followed by its `return false, nil`. -/
def rangeSupported : List GoString → GoString → Bool × Option GoError
  | [], _ => (false, none)
  | f :: rest, feature => if f = feature then (true, none) else rangeSupported rest feature

/-- The function `TargetSupports`. -/
def TargetSupports (net : Net) (updater : Updater) (feature : GoString) :
    Bool × Option GoError :=
  match net.Get updater.HttpClient (updater.BaseUrl.String ++ lit "update/features") with
  | .error err => (false, some err)
  | .ok resp =>
    if resp.StatusCode = http.StatusNotFound then (false, none)
    else if resp.StatusCode ≠ http.StatusOK then
      let body := (ioutil.ReadAll resp.Body).1
      (false, some (.unexpectedStatus resp.StatusCode http.StatusOK body))
    else
      match ioutil.ReadAll resp.Body with
      | (_, some err) => (false, some err)
      | (body, none) =>
        let supported := strings.Split (strings.TrimSpace body) 44
        rangeSupported supported feature

end updater

/-! ## Package `httpclient` (src/httpclient/httpclient.go) -/

namespace httpclient

open updater

/-- The machine the program runs on, as `GetUpdaterByTLSFlag` meets it. -/
structure System where
  /-- Go `x509.SystemCertPool()`: the pool (possibly `nil`) and the error. -/
  SystemCertPool : Option CertPool × Option GoError
  /-- Go `(*CertPool).AppendCertsFromPEM`: the pool afterwards and whether a
  certificate was parsed. -/
  AppendCertsFromPEM : CertPool → List Byte → CertPool × Bool
  /-- The function `config.HostnameSpecific` of this repository, whose source
  is not part of the embedding: host name to configuration directory. -/
  HostnameSpecific : GoString → GoString
  /-- Go `filepath.Join` of two elements. -/
  Join : GoString → GoString → GoString
  /-- The error of `os.Stat(path)`. -/
  Stat : GoString → Option GoError
  /-- Go `ioutil.ReadFile`. -/
  ReadFile : GoString → Except GoError (List Byte)

/-- Go `os.IsNotExist`. -/
def os.IsNotExist : Option GoError → Bool
  | some .ErrNotExist => true
  | _ => false

/-- The function `GetTLSHttpClient`: it cannot fail. -/
def GetTLSHttpClient (trustStore : CertPool) : HttpClient × Option GoError :=
  (⟨trustStore⟩, none)

/-- The function `GetUpdaterByTLSFlag`; the result is the triple
`(*updater.Updater, bool, error)`. -/
def GetUpdaterByTLSFlag (sys : System) (tlsFlag : GoString) (baseUrl : URL) :
    Option Updater × Bool × Option GoError :=
  let rootCAs : CertPool :=
    match sys.SystemCertPool.1 with
    | none => x509.NewCertPool
    | some pool => pool
  let foundMatchingCertificate := false
  let appended : Except GoError (CertPool × Bool) :=
    if tlsFlag ≠ lit "self-signed" then
      let usrCert := (strings.Split tlsFlag 44).headD []
      match sys.ReadFile usrCert with
      | .error err => .error (.readingUserCertificate usrCert err)
      | .ok certBytes =>
        .ok ((sys.AppendCertsFromPEM rootCAs certBytes).1, foundMatchingCertificate)
    else
      let hostConfig := sys.HostnameSpecific baseUrl.Host
      let certPath := sys.Join hostConfig (lit "cert.pem")
      if ¬ os.IsNotExist (sys.Stat certPath) then
        let foundMatchingCertificate := true
        match sys.ReadFile certPath with
        | .error err => .error (.readingCertificate certPath err)
        | .ok certBytes =>
          .ok ((sys.AppendCertsFromPEM rootCAs certBytes).1, foundMatchingCertificate)
      else .ok (rootCAs, foundMatchingCertificate)
  match appended with
  | .error err => (none, false, some err)
  | .ok (rootCAs, foundMatchingCertificate) =>
    match GetTLSHttpClient rootCAs with
    | (_, some err) => (none, false, some err)
    | (client, none) => (some ⟨baseUrl, client⟩, foundMatchingCertificate, none)

end httpclient

/-! ## Notions used to state the properties, and test environments -/

namespace hex

/-- A valid hexadecimal string: an even number of bytes, each a hexadecimal
digit (of either case). -/
def Valid (s : List Byte) : Prop :=
  s.length % 2 = 0 ∧ ∀ c ∈ s, (fromHexChar c).isSome = true

instance : DecidablePred Valid := fun s => by unfold Valid; infer_instance

end hex

namespace updater

/-- The feature list the way the description words it: the body split at
commas, white space trimmed from each entry. -/
def featuresTrimmedPerEntry (body : List Byte) : List GoString :=
  (strings.Split body 44).map strings.TrimSpace

/-- A mock server: every request can be built, the client reads the whole
request body, and every request is answered with `resp`. -/
def mockServer (resp : Response) : Net :=
  ⟨fun _ _ => none, fun _ req => ⟨req.Body.length, .ok resp⟩, fun _ _ => .ok resp,
    fun _ _ => .ok resp⟩

/-- A mock server that answers before the upload is complete: every request
can be built, the client has read only the first `k` bytes of the request body
when the response `resp` arrives, and every request is answered with `resp`. -/
def earlyServer (k : Nat) (resp : Response) : Net :=
  ⟨fun _ _ => none, fun _ _ => ⟨k, .ok resp⟩, fun _ _ => .ok resp, fun _ _ => .ok resp⟩

/-- An updater for the device `gokrazy`. -/
def mockUpdater : Updater := ⟨⟨lit "gokrazy", lit "http://gokrazy/"⟩, ⟨x509.NewCertPool⟩⟩

/-- The hexadecimal SHA-256 digest of the empty payload. -/
def emptyDigestHex : List Byte :=
  lit "e3b0c44298fc1c149afbf4c8996fb92427ae41e4649b934ca495991b7852b855"

/-- The HTML page a device without update handlers answers with. -/
def legacyPage : List Byte := lit "<!DOCTYPE html><html><body>404 page not found</body></html>"

end updater

namespace httpclient

/-- A machine whose system pool holds one certificate, whose PEM parser keeps
the bytes it is given, whose configuration directory of a host is
`/etc/gokrazy/hosts/<host>`, and where `os.Stat` and `ioutil.ReadFile` answer
the same for every path. -/
def mockSystem (stat : Option GoError) (file : Except GoError (List Byte)) : System :=
  ⟨(some ⟨[[48, 130]]⟩, none), fun pool pem => (⟨pool.certs ++ [pem]⟩, true),
    fun host => lit "/etc/gokrazy/hosts/" ++ host, fun dir name => dir ++ 47 :: name,
    fun _ => stat, fun _ => file⟩

/-- The base URL of the device `gokrazy`. -/
def mockUrl : URL := ⟨lit "gokrazy", lit "https://gokrazy/"⟩

end httpclient

/-! ## Lemmas about the library functions -/

theorem two_step_induction {α : Type} {P : List α → Prop} (h0 : P [])
    (h1 : ∀ a, P [a]) (h2 : ∀ a b l, P l → P (a :: b :: l)) : ∀ l, P l := by
  intro l
  have key : ∀ l : List α, P l ∧ ∀ a, P (a :: l) := by
    intro l
    induction l with
    | nil => exact ⟨h0, h1⟩
    | cons b l ih => exact ⟨ih.2 b, fun a => h2 a b l ih.1⟩
  exact (key l).1

namespace hex

theorem valid_cons_cons (p q : Byte) (rest : List Byte) :
    Valid (p :: q :: rest) ↔
      (fromHexChar p).isSome = true ∧ (fromHexChar q).isSome = true ∧ Valid rest := by
  unfold Valid
  simp only [List.length_cons, List.mem_cons, forall_eq_or_imp]
  constructor
  · rintro ⟨hl, hp, hq, hr⟩
    exact ⟨hp, hq, by omega, hr⟩
  · rintro ⟨hp, hq, hl, hr⟩
    exact ⟨by omega, hp, hq, hr⟩

/-- `Decode` reports no error exactly on the valid hexadecimal strings. -/
theorem Decode_snd_eq_none_iff (s : List Byte) : (Decode s).2 = none ↔ Valid s := by
  induction s using two_step_induction with
  | h0 => simp [Decode, Valid]
  | h1 a => cases h : fromHexChar a <;> simp [Decode, Valid, h]
  | h2 p q rest ih =>
    rw [valid_cons_cons, ← ih]
    cases hp : fromHexChar p <;> cases hq : fromHexChar q <;> simp [Decode, hp, hq]

/-- The error of `Decode`, when there is one, is an invalid byte of the input
or the bad length of an input of odd length. -/
theorem Decode_snd_eq_some (s : List Byte) (e : GoError) (h : (Decode s).2 = some e) :
    (∃ b, b ∈ s ∧ fromHexChar b = none ∧ e = .InvalidByteError b) ∨
      (e = .ErrLength ∧ s.length % 2 = 1) := by
  induction s using two_step_induction with
  | h0 => simp [Decode] at h
  | h1 a =>
    cases ha : fromHexChar a <;> simp [Decode, ha] at h
    · exact Or.inl ⟨a, by simp, ha, h.symm⟩
    · exact Or.inr ⟨h.symm, by simp⟩
  | h2 p q rest ih =>
    cases hp : fromHexChar p <;> cases hq : fromHexChar q <;> simp [Decode, hp, hq] at h
    · exact Or.inl ⟨p, by simp, hp, h.symm⟩
    · exact Or.inl ⟨p, by simp, hp, h.symm⟩
    · exact Or.inl ⟨q, by simp, hq, h.symm⟩
    · rcases ih h with ⟨b, hb, hb2, hb3⟩ | ⟨h1, h2⟩
      · exact Or.inl ⟨b, by simp [hb], hb2, hb3⟩
      · exact Or.inr ⟨h1, by simp only [List.length_cons]; omega⟩

theorem fromHexChar_hextable (v : Nat) (h : v < 16) : fromHexChar (hextable v) = some v := by
  unfold hextable fromHexChar
  interval_cases v <;> simp

set_option maxRecDepth 100000 in
theorem nibbles : ∀ v, v < 256 →
    v >>> 4 < 16 ∧ v &&& 0x0F < 16 ∧ ((v >>> 4) <<< 4) ||| (v &&& 0x0F) = v := by
  decide

/-- Decoding the encoding of a sequence of bytes gives the bytes back. -/
theorem Decode_Encode (d : List Byte) (h : ∀ b ∈ d, b < 256) :
    Decode (Encode d) = (d, none) := by
  induction d with
  | nil => rfl
  | cons v rest ih =>
    have hv : v < 256 := h v (by simp)
    have ih := ih (fun b hb => h b (by simp [hb]))
    obtain ⟨h1, h2, h3⟩ := nibbles v hv
    simp only [Encode, Decode, fromHexChar_hextable _ h1, fromHexChar_hextable _ h2, ih, h3]

end hex

namespace sha256

theorem Sum256_length (msg : List Byte) : (Sum256 msg).length = 32 := by
  simp [Sum256, putUint32]

theorem Sum256_lt (msg : List Byte) : ∀ b ∈ Sum256 msg, b < 256 := by
  intro b hb
  simp only [Sum256, putUint32, List.mem_append, List.mem_cons, List.mem_singleton,
    List.not_mem_nil, or_false] at hb
  rcases hb with ((((((h | h) | h) | h) | h) | h) | h ) | h <;>
    rcases h with h | h | h | h <;> subst h <;> exact Nat.mod_lt _ (by norm_num)

end sha256

namespace bytes

/-- `HasPrefix s p` holds exactly when `s` begins with `p`. -/
theorem HasPrefix_iff (s p : List Byte) : HasPrefix s p = true ↔ ∃ rest, s = p ++ rest := by
  simp only [HasPrefix, Bool.and_eq_true, decide_eq_true_eq]
  constructor
  · rintro ⟨-, h⟩
    have hs : s = s.take p.length ++ s.drop p.length := (List.take_append_drop _ _).symm
    rw [h] at hs
    exact ⟨s.drop p.length, hs⟩
  · rintro ⟨rest, rfl⟩
    simp

end bytes

namespace strings

theorem Split_ne_nil (s : GoString) (sep : Byte) : Split s sep ≠ [] := by
  cases s with
  | nil => simp [Split]
  | cons c rest =>
    unfold Split
    split
    · simp
    · split <;> simp

/-- The first element of `Split s sep` is the text before the first `sep`. -/
theorem Split_headD (s : GoString) (sep : Byte) :
    (Split s sep).headD [] = s.takeWhile (fun c => decide (c ≠ sep)) := by
  induction s with
  | nil => rfl
  | cons c rest ih =>
    by_cases h : c = sep
    · simp [Split, h]
    · cases hs : Split rest sep with
      | nil => exact absurd hs (Split_ne_nil rest sep)
      | cons f fs =>
        rw [hs] at ih
        rw [Split, if_neg h, hs, List.takeWhile_cons, ← ih]
        simp [h]

end strings

/-! ## Package `updater`: `StreamTo` and the three uploads -/

namespace updater

theorem doctype_eq :
    doctype = [60, 33, 68, 79, 67, 84, 89, 80, 69, 32, 104, 116, 109, 108, 62] := by
  decide

/-- A body that begins with the HTML marker is not valid hexadecimal: its first
byte is `<`. -/
theorem not_valid_of_hasPrefix_doctype (s : List Byte)
    (h : bytes.HasPrefix s doctype = true) : ¬ hex.Valid s := by
  obtain ⟨rest, rfl⟩ := (bytes.HasPrefix_iff s doctype).1 h
  intro hv
  have := hv.2 60 (by rw [doctype_eq]; simp)
  simp [hex.fromHexChar] at this

/-- What `StreamTo` returns once the request was built and the client returned
the response `resp`, having read `n` bytes of the payload. -/
theorem StreamTo_response (net : Net) (u : Updater) (path : GoString) (r : List Byte)
    (n : Nat) (resp : Response)
    (hreq : net.NewRequest http.MethodPut (u.BaseUrl.String ++ path) = none)
    (hdo : net.Do u.HttpClient ⟨http.MethodPut, u.BaseUrl.String ++ path, r⟩ = ⟨n, .ok resp⟩) :
    StreamTo net u path r =
      if resp.StatusCode ≠ 200 then
        some (.unexpectedStatus resp.StatusCode 200 resp.Body.data)
      else
        match resp.Body.err with
        | some err => some err
        | none =>
          if bytes.HasPrefix resp.Body.data doctype then some .ErrUpdateHandlerNotImplemented
          else
            match (hex.Decode resp.Body.data).2 with
            | some err => some err
            | none =>
              if (hex.Decode resp.Body.data).1 ≠ sha256.Sum256 (r.take n) then
                some (.unexpectedHash (hex.Decode resp.Body.data).1 (sha256.Sum256 (r.take n)))
              else none := by
  simp only [StreamTo, hreq, hdo, http.StatusOK, ioutil.ReadAll, sha256.digest.Write,
    sha256.digest.Sum, sha256.New, List.nil_append, ErrUpdateHandlerNotImplemented]
  split
  · rfl
  · cases he : resp.Body.err with
    | some err => rfl
    | none =>
      simp only []
      split
      · rfl
      · rcases hd : hex.Decode resp.Body.data with ⟨d, _ | e⟩ <;> simp

/-- C1, as amended: when the request was built and the client returned a
response `resp` whose body was read without error, having read the first `n`
bytes of the payload `r` from the reader, `StreamTo` returns `nil` if and only
if the status is 200, the body is a valid hexadecimal string and the bytes it
decodes to are the SHA-256 digest of the bytes read, `r.take n`; these are all
of `r` when the client read the reader to its end.  In particular it returns
`nil` when the status is 200 and the body is the hexadecimal encoding of that
digest, also for the empty payload. -/
theorem StreamTo_nil_iff (net : Net) (u : Updater) (path : GoString) (r : List Byte)
    (n : Nat) (resp : Response)
    (hreq : net.NewRequest http.MethodPut (u.BaseUrl.String ++ path) = none)
    (hdo : net.Do u.HttpClient ⟨http.MethodPut, u.BaseUrl.String ++ path, r⟩ = ⟨n, .ok resp⟩)
    (hread : resp.Body.err = none) :
    (StreamTo net u path r = none ↔
      resp.StatusCode = 200 ∧ hex.Valid resp.Body.data ∧
        (hex.Decode resp.Body.data).1 = sha256.Sum256 (r.take n)) ∧
    (r.length ≤ n →
      (StreamTo net u path r = none ↔
        resp.StatusCode = 200 ∧ hex.Valid resp.Body.data ∧
          (hex.Decode resp.Body.data).1 = sha256.Sum256 r)) ∧
    (resp.StatusCode = 200 → resp.Body.data = hex.Encode (sha256.Sum256 (r.take n)) →
      StreamTo net u path r = none) ∧
    (r = [] → resp.StatusCode = 200 → resp.Body.data = hex.Encode (sha256.Sum256 []) →
      StreamTo net u path r = none) := by
  have key : StreamTo net u path r = none ↔
      resp.StatusCode = 200 ∧ hex.Valid resp.Body.data ∧
        (hex.Decode resp.Body.data).1 = sha256.Sum256 (r.take n) := by
    rw [StreamTo_response net u path r n resp hreq hdo, hread]
    by_cases hs : resp.StatusCode = 200
    · by_cases hp : bytes.HasPrefix resp.Body.data doctype = true
      · have := not_valid_of_hasPrefix_doctype _ hp
        simp [hs, hp, this]
      · rw [← hex.Decode_snd_eq_none_iff]
        cases hd : (hex.Decode resp.Body.data).2 <;> simp [hs, hp]
    · simp [hs]
  have echo : resp.StatusCode = 200 →
      resp.Body.data = hex.Encode (sha256.Sum256 (r.take n)) →
      StreamTo net u path r = none := by
    intro hs hb
    refine key.2 ⟨hs, ?_, ?_⟩
    · rw [← hex.Decode_snd_eq_none_iff, hb, hex.Decode_Encode _ (sha256.Sum256_lt _)]
    · rw [hb, hex.Decode_Encode _ (sha256.Sum256_lt _)]
  refine ⟨key, fun hn => ?_, echo, fun hr hs hb => echo hs ?_⟩
  · rw [key, List.take_of_length_le hn]
  · rw [hb, hr, List.take_nil]

set_option maxRecDepth 100000 in
/-- C1 as amended, at concrete inputs: the empty payload against a mock server
that answers 200 with the hexadecimal digest of the empty string, and the
payload `[9, 8, 7, 6]` of which the client read two bytes against a server
that answers 200 with the hexadecimal digest of `[9, 8]`. -/
theorem StreamTo_nil_iff_witness :
    hex.Encode (sha256.Sum256 []) = emptyDigestHex ∧
    StreamTo (mockServer ⟨200, ⟨emptyDigestHex, none⟩⟩) mockUpdater (lit "update/root") []
      = none ∧
    StreamTo (earlyServer 2 ⟨200, ⟨hex.Encode (sha256.Sum256 [9, 8]), none⟩⟩) mockUpdater
      (lit "update/root") [9, 8, 7, 6] = none :=
  ⟨by decide!,
   (StreamTo_nil_iff (mockServer ⟨200, ⟨emptyDigestHex, none⟩⟩) mockUpdater (lit "update/root") []
      0 ⟨200, ⟨emptyDigestHex, none⟩⟩ rfl rfl rfl).2.2.2 rfl rfl (by decide!),
   (StreamTo_nil_iff (earlyServer 2 ⟨200, ⟨hex.Encode (sha256.Sum256 [9, 8]), none⟩⟩) mockUpdater
      (lit "update/root") [9, 8, 7, 6] 2 ⟨200, ⟨hex.Encode (sha256.Sum256 [9, 8]), none⟩⟩
      rfl rfl rfl).2.2.1 rfl rfl⟩

set_option maxRecDepth 100000 in
/-- C1 as stated fails: the payload `[1, 2, 3, 4, 5, 6]`, of which the client
has read three bytes when the response arrives; the response has status 200
and its body, read without error, is valid hexadecimal and decodes to the
SHA-256 digest of the whole payload, yet `StreamTo` does not return `nil`: it
compares with the digest of the three bytes read and reports a mismatch. -/
theorem StreamTo_whole_payload_digest_rejected :
    hex.Valid (hex.Encode (sha256.Sum256 [1, 2, 3, 4, 5, 6])) ∧
    (hex.Decode (hex.Encode (sha256.Sum256 [1, 2, 3, 4, 5, 6]))).1
      = sha256.Sum256 [1, 2, 3, 4, 5, 6] ∧
    StreamTo (earlyServer 3 ⟨200, ⟨hex.Encode (sha256.Sum256 [1, 2, 3, 4, 5, 6]), none⟩⟩)
      mockUpdater (lit "update/root") [1, 2, 3, 4, 5, 6]
      = some (.unexpectedHash (sha256.Sum256 [1, 2, 3, 4, 5, 6]) (sha256.Sum256 [1, 2, 3])) := by
  decide!

/-- C2, as amended: for a status-200 response whose body was read without
error and is a valid hexadecimal string (such a body never begins with the
HTML marker) that decodes to bytes different from the SHA-256 digest of the
bytes the client read from the reader, `r.take n`, `StreamTo` fails with the
digest-mismatch error, `got` being the decoded bytes and `want` the digest of
the bytes read; when the client read the reader to its end these are all of the
payload `r`.  The empty body is such a body, whatever the payload. -/
theorem StreamTo_digest_mismatch (net : Net) (u : Updater) (path : GoString) (r : List Byte)
    (n : Nat) (resp : Response)
    (hreq : net.NewRequest http.MethodPut (u.BaseUrl.String ++ path) = none)
    (hdo : net.Do u.HttpClient ⟨http.MethodPut, u.BaseUrl.String ++ path, r⟩ = ⟨n, .ok resp⟩)
    (hread : resp.Body.err = none) (hstatus : resp.StatusCode = 200) :
    (hex.Valid resp.Body.data → ¬ ∃ rest, resp.Body.data = doctype ++ rest) ∧
    (hex.Valid resp.Body.data →
      (hex.Decode resp.Body.data).1 ≠ sha256.Sum256 (r.take n) →
      StreamTo net u path r =
        some (.unexpectedHash (hex.Decode resp.Body.data).1 (sha256.Sum256 (r.take n)))) ∧
    (r.length ≤ n → hex.Valid resp.Body.data →
      (hex.Decode resp.Body.data).1 ≠ sha256.Sum256 r →
      StreamTo net u path r =
        some (.unexpectedHash (hex.Decode resp.Body.data).1 (sha256.Sum256 r))) ∧
    (resp.Body.data = [] →
      StreamTo net u path r = some (.unexpectedHash [] (sha256.Sum256 (r.take n)))) := by
  have hdoc : hex.Valid resp.Body.data → bytes.HasPrefix resp.Body.data doctype = false := by
    intro hv
    cases hp : bytes.HasPrefix resp.Body.data doctype
    · rfl
    · exact absurd hv (not_valid_of_hasPrefix_doctype _ hp)
  have main : hex.Valid resp.Body.data →
      (hex.Decode resp.Body.data).1 ≠ sha256.Sum256 (r.take n) →
      StreamTo net u path r =
        some (.unexpectedHash (hex.Decode resp.Body.data).1 (sha256.Sum256 (r.take n))) := by
    intro hv hne
    rw [StreamTo_response net u path r n resp hreq hdo, hread]
    have hd := (hex.Decode_snd_eq_none_iff _).2 hv
    simp [hstatus, hdoc hv, hd, hne]
  refine ⟨fun hv hbegins => ?_, main, fun hn hv hne => ?_, fun hb => ?_⟩
  · have := (bytes.HasPrefix_iff _ _).2 hbegins
    rw [hdoc hv] at this
    exact Bool.noConfusion this
  · have hfull : r.take n = r := List.take_of_length_le hn
    rw [← hfull] at hne
    have := main hv hne
    rw [hfull] at this
    exact this
  · have hv : hex.Valid resp.Body.data := by rw [hb]; simp [hex.Valid]
    have hne : (hex.Decode resp.Body.data).1 ≠ sha256.Sum256 (r.take n) := by
      intro h
      have := congrArg List.length h
      rw [sha256.Sum256_length, hb] at this
      simp [hex.Decode] at this
    have := main hv hne
    rw [hb] at this
    simpa [hex.Decode] using this

set_option maxRecDepth 100000 in
/-- C2 as amended, at concrete inputs: the payload `[1, 2, 3]`, read to its
end, against a server that echoes the digest of the empty payload, and against
a server that answers with an empty body. -/
theorem StreamTo_digest_mismatch_witness :
    StreamTo (mockServer ⟨200, ⟨emptyDigestHex, none⟩⟩) mockUpdater (lit "update/boot") [1, 2, 3]
      = some (.unexpectedHash (sha256.Sum256 []) (sha256.Sum256 [1, 2, 3])) ∧
    StreamTo (mockServer ⟨200, ⟨[], none⟩⟩) mockUpdater (lit "update/boot") [1, 2, 3]
      = some (.unexpectedHash [] (sha256.Sum256 [1, 2, 3])) :=
  ⟨((StreamTo_digest_mismatch (mockServer ⟨200, ⟨emptyDigestHex, none⟩⟩) mockUpdater
      (lit "update/boot") [1, 2, 3] 3 ⟨200, ⟨emptyDigestHex, none⟩⟩ rfl rfl rfl rfl).2.2.1
      (by decide) (by decide!) (by decide!)).trans (by decide!),
   (StreamTo_digest_mismatch (mockServer ⟨200, ⟨[], none⟩⟩) mockUpdater
      (lit "update/boot") [1, 2, 3] 3 ⟨200, ⟨[], none⟩⟩ rfl rfl rfl rfl).2.2.2 rfl⟩

set_option maxRecDepth 100000 in
/-- C2 as stated fails: the payload `[10, 20, 30, 40]`, of which the client has
read two bytes when the response arrives; the response has status 200 and its
body, read without error, does not begin with the HTML marker, is valid
hexadecimal and decodes to bytes different from the SHA-256 digest of the
payload (they are the digest of the two bytes read), yet `StreamTo` returns
`nil` instead of the digest-mismatch error. -/
theorem StreamTo_prefix_digest_accepted :
    bytes.HasPrefix (hex.Encode (sha256.Sum256 [10, 20])) doctype = false ∧
    hex.Valid (hex.Encode (sha256.Sum256 [10, 20])) ∧
    (hex.Decode (hex.Encode (sha256.Sum256 [10, 20]))).1 ≠ sha256.Sum256 [10, 20, 30, 40] ∧
    StreamTo (earlyServer 2 ⟨200, ⟨hex.Encode (sha256.Sum256 [10, 20]), none⟩⟩)
      mockUpdater (lit "update/boot") [10, 20, 30, 40] = none := by
  decide!

/-- C3: for a status-200 response whose body was read without error and begins
with the literal `<!DOCTYPE html>`, whatever follows it, `StreamTo` returns
exactly `ErrUpdateHandlerNotImplemented` (hence neither a digest-mismatch nor a
hexadecimal decoding error), for every path and payload; so do `UpdateRoot`,
`UpdateBoot` and `UpdateMBR`, which stream to their fixed paths. -/
theorem upload_ErrUpdateHandlerNotImplemented (net : Net) (u : Updater) (path : GoString)
    (r : List Byte) (n : Nat) (resp : Response)
    (hreq : net.NewRequest http.MethodPut (u.BaseUrl.String ++ path) = none)
    (hdo : net.Do u.HttpClient ⟨http.MethodPut, u.BaseUrl.String ++ path, r⟩ = ⟨n, .ok resp⟩)
    (hread : resp.Body.err = none) (hstatus : resp.StatusCode = 200)
    (hdoc : ∃ rest, resp.Body.data = doctype ++ rest) :
    StreamTo net u path r = some ErrUpdateHandlerNotImplemented ∧
    (path = lit "update/root" → UpdateRoot net u r = some ErrUpdateHandlerNotImplemented) ∧
    (path = lit "update/boot" → UpdateBoot net u r = some ErrUpdateHandlerNotImplemented) ∧
    (path = lit "update/mbr" → UpdateMBR net u r = some ErrUpdateHandlerNotImplemented) := by
  have hp : bytes.HasPrefix resp.Body.data doctype = true := (bytes.HasPrefix_iff _ _).2 hdoc
  have main : StreamTo net u path r = some ErrUpdateHandlerNotImplemented := by
    rw [StreamTo_response net u path r n resp hreq hdo, hread]
    simp [hstatus, hp, ErrUpdateHandlerNotImplemented]
  refine ⟨main, fun h => ?_, fun h => ?_, fun h => ?_⟩
  · rw [UpdateRoot, ← h]; exact main
  · rw [UpdateBoot, ← h]; exact main
  · rw [UpdateMBR, ← h]; exact main

/-- C3 at a concrete input: a legacy device answers the MBR upload with an HTML
page. -/
theorem upload_ErrUpdateHandlerNotImplemented_witness :
    StreamTo (mockServer ⟨200, ⟨legacyPage, none⟩⟩) mockUpdater (lit "update/mbr") [7, 7]
      = some ErrUpdateHandlerNotImplemented ∧
    UpdateMBR (mockServer ⟨200, ⟨legacyPage, none⟩⟩) mockUpdater [7, 7]
      = some ErrUpdateHandlerNotImplemented :=
  have h := upload_ErrUpdateHandlerNotImplemented (mockServer ⟨200, ⟨legacyPage, none⟩⟩)
    mockUpdater (lit "update/mbr") [7, 7] 2 ⟨200, ⟨legacyPage, none⟩⟩ rfl rfl rfl rfl
    ⟨lit "<html><body>404 page not found</body></html>", by decide⟩
  ⟨h.1, h.2.2.2 rfl⟩

/-- C4: for a response whose status is not 200, `StreamTo` fails with the
unexpected-status error carrying that status, the wanted status 200 and the
body as far as it could be read, whatever the body is (a correct digest, an
HTML page) and whether or not reading it failed. -/
theorem StreamTo_unexpected_status (net : Net) (u : Updater) (path : GoString)
    (r : List Byte) (n : Nat) (resp : Response)
    (hreq : net.NewRequest http.MethodPut (u.BaseUrl.String ++ path) = none)
    (hdo : net.Do u.HttpClient ⟨http.MethodPut, u.BaseUrl.String ++ path, r⟩ = ⟨n, .ok resp⟩)
    (hstatus : resp.StatusCode ≠ 200) :
    StreamTo net u path r = some (.unexpectedStatus resp.StatusCode 200 resp.Body.data) := by
  rw [StreamTo_response net u path r n resp hreq hdo]
  simp [hstatus]

/-- C4 at concrete inputs: status 500 with the correct digest as body, and
status 404 with an HTML page as body. -/
theorem StreamTo_unexpected_status_witness :
    StreamTo (mockServer ⟨500, ⟨emptyDigestHex, none⟩⟩) mockUpdater (lit "update/root") []
      = some (.unexpectedStatus 500 200 emptyDigestHex) ∧
    StreamTo (mockServer ⟨404, ⟨legacyPage, none⟩⟩) mockUpdater (lit "update/root") []
      = some (.unexpectedStatus 404 200 legacyPage) :=
  ⟨StreamTo_unexpected_status (mockServer ⟨500, ⟨emptyDigestHex, none⟩⟩) mockUpdater
      (lit "update/root") [] 0 ⟨500, ⟨emptyDigestHex, none⟩⟩ rfl rfl (by decide),
   StreamTo_unexpected_status (mockServer ⟨404, ⟨legacyPage, none⟩⟩) mockUpdater
      (lit "update/root") [] 0 ⟨404, ⟨legacyPage, none⟩⟩ rfl rfl (by decide)⟩

/-- C5: for a status-200 response whose body was read without error, does not
begin with `<!DOCTYPE html>` and is not valid hexadecimal (its length is odd,
or it contains a byte that is no hexadecimal digit), `StreamTo` fails with the
error of `hex.Decode` on the body: `InvalidByteError` of a non-digit byte of
the body, or `ErrLength` for an odd length.  That error is a function of the
body alone, so it does not depend on the payload, and it is no digest-mismatch
error. -/
theorem StreamTo_hex_error (net : Net) (u : Updater) (path : GoString)
    (r : List Byte) (n : Nat) (resp : Response)
    (hreq : net.NewRequest http.MethodPut (u.BaseUrl.String ++ path) = none)
    (hdo : net.Do u.HttpClient ⟨http.MethodPut, u.BaseUrl.String ++ path, r⟩ = ⟨n, .ok resp⟩)
    (hread : resp.Body.err = none) (hstatus : resp.StatusCode = 200)
    (hdoc : ¬ ∃ rest, resp.Body.data = doctype ++ rest)
    (hinvalid : resp.Body.data.length % 2 = 1 ∨
      ∃ b, b ∈ resp.Body.data ∧ hex.fromHexChar b = none) :
    ∃ e, (hex.Decode resp.Body.data).2 = some e ∧ StreamTo net u path r = some e ∧
      ((∃ b, b ∈ resp.Body.data ∧ hex.fromHexChar b = none ∧ e = .InvalidByteError b) ∨
        (e = .ErrLength ∧ resp.Body.data.length % 2 = 1)) := by
  have hnv : ¬ hex.Valid resp.Body.data := by
    rintro ⟨hl, hall⟩
    rcases hinvalid with h | ⟨b, hb, hb2⟩
    · omega
    · have := hall b hb
      simp [hb2] at this
  have hp : bytes.HasPrefix resp.Body.data doctype = false := by
    cases hp : bytes.HasPrefix resp.Body.data doctype
    · rfl
    · exact absurd ((bytes.HasPrefix_iff _ _).1 hp) hdoc
  rw [← hex.Decode_snd_eq_none_iff] at hnv
  cases hd : (hex.Decode resp.Body.data).2 with
  | none => exact absurd hd hnv
  | some e =>
    refine ⟨e, rfl, ?_, hex.Decode_snd_eq_some _ e hd⟩
    rw [StreamTo_response net u path r n resp hreq hdo, hread]
    simp [hstatus, hp, hd]

/-- C5 at concrete inputs: the correct digest followed by a newline, and a body
of three digits, for the empty payload. -/
theorem StreamTo_hex_error_witness :
    StreamTo (mockServer ⟨200, ⟨emptyDigestHex ++ [10], none⟩⟩) mockUpdater (lit "update/root") []
      = some (.InvalidByteError 10) ∧
    StreamTo (mockServer ⟨200, ⟨lit "e3b", none⟩⟩) mockUpdater (lit "update/root") []
      = some .ErrLength := by
  constructor
  · obtain ⟨e, he, hs, -⟩ := StreamTo_hex_error (mockServer ⟨200, ⟨emptyDigestHex ++ [10], none⟩⟩)
      mockUpdater (lit "update/root") [] 0 ⟨200, ⟨emptyDigestHex ++ [10], none⟩⟩ rfl rfl rfl rfl
      (by rw [← bytes.HasPrefix_iff]; decide) (Or.inl (by decide))
    rw [hs, ← he]
    decide
  · obtain ⟨e, he, hs, -⟩ := StreamTo_hex_error (mockServer ⟨200, ⟨lit "e3b", none⟩⟩)
      mockUpdater (lit "update/root") [] 0 ⟨200, ⟨lit "e3b", none⟩⟩ rfl rfl rfl rfl
      (by rw [← bytes.HasPrefix_iff]; decide) (Or.inl (by decide))
    rw [hs, ← he]
    decide

end updater

/-! ## Package `updater`: `TargetSupports`, `Switch`, `Reboot` -/

namespace updater

/-- The loop of `TargetSupports` is a membership test. -/
theorem rangeSupported_eq (l : List GoString) (feature : GoString) :
    rangeSupported l feature = (decide (feature ∈ l), none) := by
  induction l with
  | nil => simp [rangeSupported]
  | cons f rest ih =>
    by_cases h : f = feature
    · simp [rangeSupported, h]
    · have h2 : ¬ feature = f := fun e => h e.symm
      simp [rangeSupported, h, h2, ih]

/-- What `TargetSupports` returns once the client returned the response
`resp`. -/
theorem TargetSupports_response (net : Net) (u : Updater) (feature : GoString) (resp : Response)
    (hget : net.Get u.HttpClient (u.BaseUrl.String ++ lit "update/features") = .ok resp) :
    TargetSupports net u feature =
      if resp.StatusCode = 404 then (false, none)
      else if resp.StatusCode ≠ 200 then
        (false, some (.unexpectedStatus resp.StatusCode 200 resp.Body.data))
      else
        match resp.Body.err with
        | some err => (false, some err)
        | none =>
          (decide (feature ∈ strings.Split (strings.TrimSpace resp.Body.data) 44), none) := by
  simp only [TargetSupports, hget, http.StatusOK, http.StatusNotFound, ioutil.ReadAll,
    rangeSupported_eq]
  split
  · rfl
  · split
    · rfl
    · cases he : resp.Body.err <;> rfl

/-- C6, as amended: for a status-200 response whose body was read without
error, `TargetSupports` returns `(true, nil)` exactly when the feature name is
one of the entries obtained by trimming the white space around the whole body
and then splitting it at the commas (the entries themselves are not trimmed),
and `(false, nil)` otherwise; the body `a,b,c` gives true for `b` and false
for `z`. -/
theorem TargetSupports_whole_body_trim (net : Net) (u : Updater) (feature : GoString)
    (resp : Response)
    (hget : net.Get u.HttpClient (u.BaseUrl.String ++ lit "update/features") = .ok resp)
    (hstatus : resp.StatusCode = 200) (hread : resp.Body.err = none) :
    (TargetSupports net u feature = (true, none) ↔
      feature ∈ strings.Split (strings.TrimSpace resp.Body.data) 44) ∧
    (TargetSupports net u feature = (false, none) ↔
      feature ∉ strings.Split (strings.TrimSpace resp.Body.data) 44) ∧
    (resp.Body.data = lit "a,b,c" →
      (feature = lit "b" → TargetSupports net u feature = (true, none)) ∧
      (feature = lit "z" → TargetSupports net u feature = (false, none))) := by
  rw [TargetSupports_response net u feature resp hget, hread]
  simp only [hstatus]
  refine ⟨by simp, by simp, fun hb => ⟨fun hf => ?_, fun hf => ?_⟩⟩
  · rw [hb, hf]; decide
  · rw [hb, hf]; decide

/-- C6 as amended, at concrete inputs: the white space around the body is
dropped; `a,b,c` supports `b` and not `z`. -/
theorem TargetSupports_whole_body_trim_witness :
    TargetSupports (mockServer ⟨200, ⟨lit " a,b,c\n", none⟩⟩) mockUpdater (lit "c")
      = (true, none) ∧
    TargetSupports (mockServer ⟨200, ⟨lit "a,b,c", none⟩⟩) mockUpdater (lit "b") = (true, none) ∧
    TargetSupports (mockServer ⟨200, ⟨lit "a,b,c", none⟩⟩) mockUpdater (lit "z") = (false, none) :=
  ⟨(TargetSupports_whole_body_trim (mockServer ⟨200, ⟨lit " a,b,c\n", none⟩⟩) mockUpdater (lit "c")
      ⟨200, ⟨lit " a,b,c\n", none⟩⟩ rfl rfl rfl).1.2 (by decide),
   ((TargetSupports_whole_body_trim (mockServer ⟨200, ⟨lit "a,b,c", none⟩⟩) mockUpdater (lit "b")
      ⟨200, ⟨lit "a,b,c", none⟩⟩ rfl rfl rfl).2.2 rfl).1 rfl,
   ((TargetSupports_whole_body_trim (mockServer ⟨200, ⟨lit "a,b,c", none⟩⟩) mockUpdater (lit "z")
      ⟨200, ⟨lit "a,b,c", none⟩⟩ rfl rfl rfl).2.2 rfl).2 rfl⟩

/-- C6 as stated fails: for the status-200 body `a, b` the feature `b` is an
entry of the comma-separated list with white space trimmed from each entry,
yet `TargetSupports` returns `(false, nil)`, because the code trims the body
as a whole and compares with the entry ` b`. -/
theorem TargetSupports_not_trimmed_per_entry :
    lit "b" ∈ featuresTrimmedPerEntry (lit "a, b") ∧
    TargetSupports (mockServer ⟨200, ⟨lit "a, b", none⟩⟩) mockUpdater (lit "b")
      = (false, none) := by
  decide

/-- C7: when the GET of `update/features` returned a response, `TargetSupports`
returns `(false, nil)` for status 404 whatever the body and the feature name,
and, the body being read without error, it returns an error if and only if the
status is neither 200 nor 404. -/
theorem TargetSupports_error_iff (net : Net) (u : Updater) (feature : GoString)
    (resp : Response)
    (hget : net.Get u.HttpClient (u.BaseUrl.String ++ lit "update/features") = .ok resp) :
    (resp.Body.err = none →
      ((TargetSupports net u feature).2 ≠ none ↔
        resp.StatusCode ≠ 200 ∧ resp.StatusCode ≠ 404)) ∧
    (resp.StatusCode = 404 → TargetSupports net u feature = (false, none)) := by
  rw [TargetSupports_response net u feature resp hget]
  refine ⟨fun hread => ?_, fun h => by simp [h]⟩
  rw [hread]
  by_cases h4 : resp.StatusCode = 404
  · simp [h4]
  · by_cases h2 : resp.StatusCode = 200
    · simp [h2]
    · simp [h2, h4]

/-- C7 at concrete inputs: status 404 gives `(false, nil)` although the body
lists the feature; status 500 gives an error. -/
theorem TargetSupports_error_iff_witness :
    TargetSupports (mockServer ⟨404, ⟨lit "a,b,c", none⟩⟩) mockUpdater (lit "b")
      = (false, none) ∧
    (TargetSupports (mockServer ⟨500, ⟨lit "a,b,c", none⟩⟩) mockUpdater (lit "b")).2 ≠ none :=
  ⟨(TargetSupports_error_iff (mockServer ⟨404, ⟨lit "a,b,c", none⟩⟩) mockUpdater (lit "b")
      ⟨404, ⟨lit "a,b,c", none⟩⟩ rfl).2 rfl,
   ((TargetSupports_error_iff (mockServer ⟨500, ⟨lit "a,b,c", none⟩⟩) mockUpdater (lit "b")
      ⟨500, ⟨lit "a,b,c", none⟩⟩ rfl).1 rfl).2 ⟨by decide, by decide⟩⟩

/-- C8: when the POST issued by `Switch` (to `update/switch`), respectively by
`Reboot` (to `reboot`), returned a response, the operation returns `nil` if
and only if the status is 200, and for every other status it returns the
unexpected-status error carrying that status, the wanted status 200 and the
response body (as far as it could be read). -/
theorem Switch_Reboot_status (net : Net) (u : Updater) :
    (∀ resp, net.Post u.HttpClient (u.BaseUrl.String ++ lit "update/switch") = .ok resp →
      (Switch net u = none ↔ resp.StatusCode = 200) ∧
      (resp.StatusCode ≠ 200 →
        Switch net u = some (.unexpectedStatus resp.StatusCode 200 resp.Body.data))) ∧
    (∀ resp, net.Post u.HttpClient (u.BaseUrl.String ++ lit "reboot") = .ok resp →
      (Reboot net u = none ↔ resp.StatusCode = 200) ∧
      (resp.StatusCode ≠ 200 →
        Reboot net u = some (.unexpectedStatus resp.StatusCode 200 resp.Body.data))) := by
  constructor
  · intro resp h
    simp only [Switch, h, http.StatusOK, ioutil.ReadAll]
    by_cases hs : resp.StatusCode = 200 <;> simp [hs]
  · intro resp h
    simp only [Reboot, h, http.StatusOK, ioutil.ReadAll]
    by_cases hs : resp.StatusCode = 200 <;> simp [hs]

/-- C8 at concrete inputs: a switch answered with 200, and a reboot answered
with 503 and a body whose reading broke off. -/
theorem Switch_Reboot_status_witness :
    Switch (mockServer ⟨200, ⟨[], none⟩⟩) mockUpdater = none ∧
    Reboot (mockServer ⟨503, ⟨lit "busy", some (.external "unexpected EOF")⟩⟩) mockUpdater
      = some (.unexpectedStatus 503 200 (lit "busy")) :=
  ⟨((Switch_Reboot_status (mockServer ⟨200, ⟨[], none⟩⟩) mockUpdater).1 _ rfl).1.2 rfl,
   ((Switch_Reboot_status (mockServer ⟨503, ⟨lit "busy", some (.external "unexpected EOF")⟩⟩)
      mockUpdater).2 _ rfl).2 (by decide)⟩

end updater

/-! ## Package `httpclient`: `GetUpdaterByTLSFlag` -/

namespace httpclient

open updater

/-- What `GetUpdaterByTLSFlag` returns for a selector other than
`self-signed`. -/
theorem GetUpdaterByTLSFlag_user (sys : System) (tlsFlag : GoString) (baseUrl : URL)
    (h : tlsFlag ≠ lit "self-signed") :
    GetUpdaterByTLSFlag sys tlsFlag baseUrl =
      match sys.ReadFile (tlsFlag.takeWhile (fun c => decide (c ≠ 44))) with
      | .error err =>
        (none, false,
          some (.readingUserCertificate (tlsFlag.takeWhile (fun c => decide (c ≠ 44))) err))
      | .ok certBytes =>
        (some ⟨baseUrl, ⟨(sys.AppendCertsFromPEM
          (sys.SystemCertPool.1.getD x509.NewCertPool) certBytes).1⟩⟩, false, none) := by
  have hp : (match sys.SystemCertPool.1 with
      | none => x509.NewCertPool
      | some pool => pool) = sys.SystemCertPool.1.getD x509.NewCertPool := by
    cases sys.SystemCertPool.1 <;> rfl
  simp only [GetUpdaterByTLSFlag, hp, strings.Split_headD, GetTLSHttpClient]
  rw [if_pos h]
  cases sys.ReadFile (tlsFlag.takeWhile (fun c => decide (c ≠ 44))) <;> rfl

/-- What `GetUpdaterByTLSFlag` returns for the selector `self-signed`. -/
theorem GetUpdaterByTLSFlag_self (sys : System) (baseUrl : URL) :
    GetUpdaterByTLSFlag sys (lit "self-signed") baseUrl =
      if os.IsNotExist (sys.Stat (sys.Join (sys.HostnameSpecific baseUrl.Host) (lit "cert.pem")))
      then (some ⟨baseUrl, ⟨sys.SystemCertPool.1.getD x509.NewCertPool⟩⟩, false, none)
      else
        match sys.ReadFile (sys.Join (sys.HostnameSpecific baseUrl.Host) (lit "cert.pem")) with
        | .error err =>
          (none, false, some (.readingCertificate
            (sys.Join (sys.HostnameSpecific baseUrl.Host) (lit "cert.pem")) err))
        | .ok certBytes =>
          (some ⟨baseUrl, ⟨(sys.AppendCertsFromPEM
            (sys.SystemCertPool.1.getD x509.NewCertPool) certBytes).1⟩⟩, true, none) := by
  have hp : (match sys.SystemCertPool.1 with
      | none => x509.NewCertPool
      | some pool => pool) = sys.SystemCertPool.1.getD x509.NewCertPool := by
    cases sys.SystemCertPool.1 <;> rfl
  simp only [GetUpdaterByTLSFlag, hp, GetTLSHttpClient, ne_eq, not_true_eq_false, if_false]
  by_cases hn : os.IsNotExist
      (sys.Stat (sys.Join (sys.HostnameSpecific baseUrl.Host) (lit "cert.pem"))) = true
  · simp [hn]
  · simp only [hn, not_false_eq_true, if_true, if_false]
    cases sys.ReadFile (sys.Join (sys.HostnameSpecific baseUrl.Host) (lit "cert.pem")) <;> rfl

/-- C9, as amended: for the selector `self-signed` and every target host, with
`cert.pem` looked up in the configuration directory of the host: if `os.Stat`
does not report the file as non-existent and the file can be read, the result
is an updater whose trust pool is the default pool with the file appended, and
the matched flag is true; if the file cannot be read, the call fails with the
reading-certificate error and the flag is false; if `os.Stat` reports that the
file does not exist, the call succeeds with the default pool only (the system
pool, or an empty pool when there is none) and the flag is false. -/
theorem GetUpdaterByTLSFlag_self_signed (sys : System) (baseUrl : URL) :
    (∀ certBytes,
      os.IsNotExist (sys.Stat (sys.Join (sys.HostnameSpecific baseUrl.Host) (lit "cert.pem")))
        = false →
      sys.ReadFile (sys.Join (sys.HostnameSpecific baseUrl.Host) (lit "cert.pem"))
        = .ok certBytes →
      GetUpdaterByTLSFlag sys (lit "self-signed") baseUrl =
        (some ⟨baseUrl, ⟨(sys.AppendCertsFromPEM
          (sys.SystemCertPool.1.getD x509.NewCertPool) certBytes).1⟩⟩, true, none)) ∧
    (∀ err,
      os.IsNotExist (sys.Stat (sys.Join (sys.HostnameSpecific baseUrl.Host) (lit "cert.pem")))
        = false →
      sys.ReadFile (sys.Join (sys.HostnameSpecific baseUrl.Host) (lit "cert.pem"))
        = .error err →
      GetUpdaterByTLSFlag sys (lit "self-signed") baseUrl =
        (none, false, some (.readingCertificate
          (sys.Join (sys.HostnameSpecific baseUrl.Host) (lit "cert.pem")) err))) ∧
    (os.IsNotExist (sys.Stat (sys.Join (sys.HostnameSpecific baseUrl.Host) (lit "cert.pem")))
        = true →
      GetUpdaterByTLSFlag sys (lit "self-signed") baseUrl =
        (some ⟨baseUrl, ⟨sys.SystemCertPool.1.getD x509.NewCertPool⟩⟩, false, none)) := by
  rw [GetUpdaterByTLSFlag_self]
  refine ⟨fun certBytes hs hr => ?_, fun err hs hr => ?_, fun hs => ?_⟩
  · simp [hs, hr]
  · simp [hs, hr]
  · simp [hs]

/-- C9 as amended, at concrete inputs: a readable `cert.pem` is appended and
matched; without the file the system pool is used alone. -/
theorem GetUpdaterByTLSFlag_self_signed_witness :
    GetUpdaterByTLSFlag (mockSystem none (.ok (lit "PEM"))) (lit "self-signed") mockUrl =
      (some ⟨mockUrl, ⟨⟨[[48, 130], lit "PEM"]⟩⟩⟩, true, none) ∧
    GetUpdaterByTLSFlag (mockSystem (some .ErrNotExist) (.error .ErrNotExist)) (lit "self-signed")
      mockUrl = (some ⟨mockUrl, ⟨⟨[[48, 130]]⟩⟩⟩, false, none) :=
  ⟨(GetUpdaterByTLSFlag_self_signed (mockSystem none (.ok (lit "PEM"))) mockUrl).1 _ rfl rfl,
   (GetUpdaterByTLSFlag_self_signed (mockSystem (some .ErrNotExist) (.error .ErrNotExist))
      mockUrl).2.2 rfl⟩

/-- C9 as stated fails: on a machine where `cert.pem` is present in the
configuration directory of the host (`os.Stat` succeeds) but cannot be read,
`GetUpdaterByTLSFlag` returns no updater, the matched flag false and the
reading-certificate error, instead of appending the file and returning the
flag true. -/
theorem GetUpdaterByTLSFlag_present_unreadable :
    (mockSystem none (.error (.external "permission denied"))).Stat
      (lit "/etc/gokrazy/hosts/gokrazy/cert.pem") = none ∧
    GetUpdaterByTLSFlag (mockSystem none (.error (.external "permission denied")))
      (lit "self-signed") mockUrl =
      (none, false, some (.readingCertificate (lit "/etc/gokrazy/hosts/gokrazy/cert.pem")
        (.external "permission denied"))) := by
  decide

/-- C10: for a selector other than `self-signed`, `GetUpdaterByTLSFlag` reads
the file named by the text before the first comma of the selector.  If that
file cannot be read it fails with the reading-user-certificate error, and
otherwise it succeeds, whatever the bytes of the file are, with the file handed
to `AppendCertsFromPEM` and the matched flag false; so it returns an error if
and only if the file cannot be read.  The result depends on the selector only
through that first entry and on the file system only through that file: another
selector with the same first entry, on another machine that agrees on the
system pool, the PEM parser and that one file, gives the same result. -/
theorem GetUpdaterByTLSFlag_user_certificate (sys : System) (tlsFlag : GoString) (baseUrl : URL)
    (h : tlsFlag ≠ lit "self-signed") :
    (∀ err, sys.ReadFile (tlsFlag.takeWhile (fun c => decide (c ≠ 44))) = .error err →
      GetUpdaterByTLSFlag sys tlsFlag baseUrl =
        (none, false,
          some (.readingUserCertificate (tlsFlag.takeWhile (fun c => decide (c ≠ 44))) err))) ∧
    (∀ certBytes, sys.ReadFile (tlsFlag.takeWhile (fun c => decide (c ≠ 44))) = .ok certBytes →
      GetUpdaterByTLSFlag sys tlsFlag baseUrl =
        (some ⟨baseUrl, ⟨(sys.AppendCertsFromPEM
          (sys.SystemCertPool.1.getD x509.NewCertPool) certBytes).1⟩⟩, false, none)) ∧
    ((GetUpdaterByTLSFlag sys tlsFlag baseUrl).2.2 ≠ none ↔
      ∃ err, sys.ReadFile (tlsFlag.takeWhile (fun c => decide (c ≠ 44))) = .error err) ∧
    (∀ (other : System) (tlsFlag2 : GoString), tlsFlag2 ≠ lit "self-signed" →
      tlsFlag2.takeWhile (fun c => decide (c ≠ 44))
        = tlsFlag.takeWhile (fun c => decide (c ≠ 44)) →
      other.SystemCertPool.1 = sys.SystemCertPool.1 →
      other.AppendCertsFromPEM = sys.AppendCertsFromPEM →
      other.ReadFile (tlsFlag.takeWhile (fun c => decide (c ≠ 44)))
        = sys.ReadFile (tlsFlag.takeWhile (fun c => decide (c ≠ 44))) →
      GetUpdaterByTLSFlag other tlsFlag2 baseUrl = GetUpdaterByTLSFlag sys tlsFlag baseUrl) := by
  refine ⟨fun err hr => ?_, fun certBytes hr => ?_, ?_, fun other tlsFlag2 h2 hf hp ha hr => ?_⟩
  · rw [GetUpdaterByTLSFlag_user sys tlsFlag baseUrl h, hr]
  · rw [GetUpdaterByTLSFlag_user sys tlsFlag baseUrl h, hr]
  · rw [GetUpdaterByTLSFlag_user sys tlsFlag baseUrl h]
    cases sys.ReadFile (tlsFlag.takeWhile (fun c => decide (c ≠ 44))) <;> simp
  · rw [GetUpdaterByTLSFlag_user sys tlsFlag baseUrl h,
      GetUpdaterByTLSFlag_user other tlsFlag2 baseUrl h2, hf, hp, ha, hr]

/-- C10 at concrete inputs: a selector of two entries; a readable first file
that is no certificate is accepted, an unreadable first file is the error. -/
theorem GetUpdaterByTLSFlag_user_certificate_witness :
    GetUpdaterByTLSFlag (mockSystem none (.ok (lit "not a certificate")))
      (lit "/tmp/ca.pem,/tmp/unused.pem") mockUrl =
      (some ⟨mockUrl, ⟨⟨[[48, 130], lit "not a certificate"]⟩⟩⟩, false, none) ∧
    GetUpdaterByTLSFlag (mockSystem (some .ErrNotExist) (.error .ErrNotExist))
      (lit "/tmp/ca.pem,/tmp/unused.pem") mockUrl =
      (none, false, some (.readingUserCertificate (lit "/tmp/ca.pem") .ErrNotExist)) :=
  ⟨(GetUpdaterByTLSFlag_user_certificate (mockSystem none (.ok (lit "not a certificate")))
      (lit "/tmp/ca.pem,/tmp/unused.pem") mockUrl (by decide)).2.1 _ rfl,
   (GetUpdaterByTLSFlag_user_certificate (mockSystem (some .ErrNotExist) (.error .ErrNotExist))
      (lit "/tmp/ca.pem,/tmp/unused.pem") mockUrl (by decide)).1 _ rfl⟩

end httpclient

end Gokrazy
